import Mathlib

/-
Verification of the YieldPilot program (src/programs/yield_pilot/src/lib.rs):
a single-record authority-guarded store with two operations, `initialize`
and `update_yield`, and one error kind, `Unauthorized`.
-/

namespace YieldPilot

/-- A Solana public key: an opaque 32-byte identifier. -/
structure Pubkey where
  bytes : List Nat
  len_eq : bytes.length = 32
  bytes_lt : ∀ b ∈ bytes, b < 256

theorem Pubkey.ext_bytes {x y : Pubkey} (h : x.bytes = y.bytes) : x = y := by
  cases x; cases y; simp_all

instance : DecidableEq Pubkey := fun x y =>
  if h : x.bytes = y.bytes then
    Decidable.isTrue (Pubkey.ext_bytes h)
  else
    Decidable.isFalse (fun hxy => h (congrArg Pubkey.bytes hxy))

/-- The `YieldState` account: `authority: Pubkey`, `current_protocol: u8`,
`current_apy_bps: u16` in declaration order. The numeric fields are carried as
`Nat`; the operations never perform arithmetic on them, so no wraparound can
occur. -/
structure YieldState where
  authority : Pubkey
  current_protocol : Nat
  current_apy_bps : Nat
deriving DecidableEq

/-- The single error kind declared by the program's error enum. -/
inductive YieldPilotError where
  | Unauthorized
deriving DecidableEq

/-- The `initialize` instruction: write authority from the signer and zero the
two numeric fields, returning `Ok(())`. -/
def initialize' (caller : Pubkey) : Except YieldPilotError YieldState :=
  Except.ok { authority := caller, current_protocol := 0, current_apy_bps := 0 }

/-- The `update_yield` instruction: `require_keys_eq!(state.authority,
caller, Unauthorized)`, then overwrite `current_protocol` and
`current_apy_bps` with the supplied values. -/
def update_yield (state : YieldState) (caller : Pubkey)
    (new_protocol new_apy_bps : Nat) : Except YieldPilotError YieldState :=
  if state.authority = caller then
    Except.ok { state with
                current_protocol := new_protocol,
                current_apy_bps := new_apy_bps }
  else
    Except.error YieldPilotError.Unauthorized

/-- The record as observed after an `update_yield` call: on success the new
state, on `Unauthorized` the record is untouched (the instruction returns
before any write). -/
def applyUpdate (s : YieldState) (caller : Pubkey) (p a : Nat) : YieldState :=
  match update_yield s caller p a with
  | Except.ok s' => s'
  | Except.error _ => s

/-- A sequence of `update_yield` calls, each given by (caller, protocol, apy),
applied in order; failed calls leave the record unchanged. -/
def applyUpdates (s : YieldState) (calls : List (Pubkey × Nat × Nat)) :
    YieldState :=
  calls.foldl (fun st c => applyUpdate st c.1 c.2.1 c.2.2) s

/-- Lifecycle of the record's storage slot: Uninitialized (no account) or
Active (holding a `YieldState`). -/
inductive Lifecycle where
  | Uninitialized
  | Active (state : YieldState)
deriving DecidableEq

/-- An invocation of one of the two program instructions. -/
inductive Op where
  | create (caller : Pubkey)
  | update (caller : Pubkey) (new_protocol new_apy_bps : Nat)

/-- One step of the lifecycle. `create` on an occupied slot is rejected by the
`init` account constraint (the external storage layer) and leaves the record
as it was; `update` on a missing account is likewise rejected externally. -/
def stepOp : Lifecycle → Op → Lifecycle
  | Lifecycle.Uninitialized, Op.create caller =>
      match initialize' caller with
      | Except.ok s => Lifecycle.Active s
      | Except.error _ => Lifecycle.Uninitialized
  | Lifecycle.Active s, Op.create _ => Lifecycle.Active s
  | Lifecycle.Uninitialized, Op.update _ _ _ => Lifecycle.Uninitialized
  | Lifecycle.Active s, Op.update caller p a =>
      Lifecycle.Active (applyUpdate s caller p a)

/-- Run a sequence of instruction invocations from a lifecycle state. -/
def runOps (l : Lifecycle) (ops : List Op) : Lifecycle :=
  ops.foldl stepOp l

/-- Modelled from the spec: the persisted layout of a record. The serializer
itself is generated by the host framework's account macro and is not present
under src/; the spec's layout table and the struct's declaration order give:
32 raw authority bytes, then `current_protocol` as one byte, then
`current_apy_bps` as two little-endian bytes. -/
def serializeYieldState (s : YieldState) : List Nat :=
  s.authority.bytes ++
    [s.current_protocol % 256,
     s.current_apy_bps % 256,
     s.current_apy_bps / 256 % 256]

/-- Concrete key for witnesses: 32 bytes of 1. -/
def pkAlice : Pubkey :=
  { bytes := List.replicate 32 1
    len_eq := rfl
    bytes_lt := by decide }

/-- Concrete key for witnesses: 32 bytes of 2. -/
def pkBob : Pubkey :=
  { bytes := List.replicate 32 2
    len_eq := rfl
    bytes_lt := by decide }

/-- Concrete Active record for witnesses, owned by `pkAlice`. -/
def stateA : YieldState :=
  { authority := pkAlice, current_protocol := 3, current_apy_bps := 550 }

theorem applyUpdate_authority (s : YieldState) (c : Pubkey) (p a : Nat) :
    (applyUpdate s c p a).authority = s.authority := by
  by_cases h : s.authority = c
  · simp [applyUpdate, update_yield, h]
  · simp [applyUpdate, update_yield, h]

/-- C1: an `update_yield` call whose caller differs from the record's
authority fails with `Unauthorized` and leaves the record bit-for-bit
unchanged (no partial write of either field). -/
theorem unauthorized_update_is_noop (s : YieldState) (B : Pubkey) (p a : Nat)
    (hB : B ≠ s.authority) :
    update_yield s B p a = Except.error YieldPilotError.Unauthorized ∧
      applyUpdate s B p a = s := by
  have h : ¬ s.authority = B := fun h => hB h.symm
  exact ⟨by simp [update_yield, h], by simp [applyUpdate, update_yield, h]⟩

/-- Witness for C1 at a concrete record and caller. -/
theorem unauthorized_update_is_noop_witness :
    update_yield stateA pkBob 7 100 = Except.error YieldPilotError.Unauthorized ∧
      applyUpdate stateA pkBob 7 100 = stateA :=
  unauthorized_update_is_noop stateA pkBob 7 100 (by decide)

/-- C2: an `update_yield` call whose caller equals the record's authority
succeeds and the resulting record has `current_protocol = p` and
`current_apy_bps = a` (with the authority preserved). -/
theorem authorized_update_applies (s : YieldState) (A : Pubkey) (p a : Nat)
    (hA : s.authority = A) :
    update_yield s A p a =
      Except.ok { authority := A, current_protocol := p, current_apy_bps := a } := by
  subst hA
  simp [update_yield]

/-- Witness for C2 at a concrete record. -/
theorem authorized_update_applies_witness :
    update_yield stateA pkAlice 3 550 =
      Except.ok { authority := pkAlice, current_protocol := 3, current_apy_bps := 550 } :=
  authorized_update_applies stateA pkAlice 3 550 (by decide)

/-- C3: for every caller identity, `initialize` yields a record whose
authority is the caller and whose numeric fields are both zero. -/
theorem initialize_sets_fields (caller : Pubkey) :
    initialize' caller =
      Except.ok { authority := caller, current_protocol := 0, current_apy_bps := 0 } :=
  rfl

/-- C4: no finite sequence of `update_yield` calls, with any callers and any
parameter values, changes the record's authority. -/
theorem authority_immutable (s : YieldState) (calls : List (Pubkey × Nat × Nat)) :
    (applyUpdates s calls).authority = s.authority := by
  induction calls generalizing s with
  | nil => rfl
  | cons c rest ih =>
      simp only [applyUpdates, List.foldl_cons]
      exact (ih (applyUpdate s c.1 c.2.1 c.2.2)).trans
        (applyUpdate_authority s c.1 c.2.1 c.2.2)

/-- C5: `update_yield` fails exactly when the caller differs from the stored
authority, and every failure is the single error kind `Unauthorized`. -/
theorem update_fails_iff_unauthorized (s : YieldState) (c : Pubkey) (p a : Nat) :
    ((∃ e, update_yield s c p a = Except.error e) ↔ c ≠ s.authority) ∧
      ∀ e, update_yield s c p a = Except.error e →
        e = YieldPilotError.Unauthorized := by
  unfold update_yield
  by_cases h : s.authority = c
  · rw [if_pos h]
    refine ⟨?_, ?_⟩
    · simp
      exact h.symm
    · intro e he
      simp at he
  · rw [if_neg h]
    refine ⟨?_, ?_⟩
    · constructor
      · intro _ hc
        exact h hc.symm
      · intro _
        exact ⟨YieldPilotError.Unauthorized, rfl⟩
    · intro e _
      cases e
      rfl

/-- Witness for C5 at concrete inputs: a mismatched caller produces exactly
`Unauthorized`, and a matching caller produces no error. -/
theorem update_fails_iff_unauthorized_witness :
    update_yield stateA pkBob 7 100 = Except.error YieldPilotError.Unauthorized ∧
      ¬ ∃ e, update_yield stateA pkAlice 3 550 = Except.error e := by
  have hbob := update_fails_iff_unauthorized stateA pkBob 7 100
  have halice := update_fails_iff_unauthorized stateA pkAlice 3 550
  refine ⟨?_, fun hc => absurd (halice.1.mp hc) (by decide)⟩
  obtain ⟨e, he⟩ := hbob.1.mpr (by decide)
  have heq := hbob.2 e he
  rw [heq] at he
  exact he

/-- C6: `initialize` raises no error from this logic itself: it returns `Ok`
for every caller identity. -/
theorem initialize_never_fails (caller : Pubkey) :
    ∃ s, initialize' caller = Except.ok s :=
  ⟨_, rfl⟩

/-- C7: Active is a terminal lifecycle state: no sequence of `create` and
`update` invocations, with any arguments, leads a record out of Active. -/
theorem active_is_terminal (s : YieldState) (ops : List Op) :
    ∃ s', runOps (Lifecycle.Active s) ops = Lifecycle.Active s' := by
  induction ops generalizing s with
  | nil => exact ⟨s, rfl⟩
  | cons op rest ih =>
      cases op with
      | create c =>
          simpa [runOps, List.foldl_cons, stepOp] using ih s
      | update c p a =>
          simpa [runOps, List.foldl_cons, stepOp] using ih (applyUpdate s c p a)

/-- C8: an authorized `update_yield` is idempotent: applying the same call
twice in a row yields the same final result as applying it once. -/
theorem authorized_update_idempotent (s : YieldState) (A : Pubkey) (p a : Nat)
    (hA : s.authority = A) :
    (update_yield s A p a).bind (fun s' => update_yield s' A p a) =
      update_yield s A p a := by
  subst hA
  simp [update_yield, Except.bind]

/-- Witness for C8 at a concrete record. -/
theorem authorized_update_idempotent_witness :
    (update_yield stateA pkAlice 3 550).bind
        (fun s' => update_yield s' pkAlice 3 550) =
      update_yield stateA pkAlice 3 550 :=
  authorized_update_idempotent stateA pkAlice 3 550 (by decide)

/-- C10: a successful `update_yield` overwrites without reading the previous
field values: two authorized updates in a row yield exactly the state of the
second update alone (last write wins). -/
theorem update_last_write_wins (s : YieldState) (A : Pubkey)
    (p1 a1 p2 a2 : Nat) (hA : s.authority = A) :
    (update_yield s A p1 a1).bind (fun s' => update_yield s' A p2 a2) =
      update_yield s A p2 a2 := by
  subst hA
  simp [update_yield, Except.bind]

/-- Witness for C10 at a concrete record. -/
theorem update_last_write_wins_witness :
    (update_yield stateA pkAlice 3 550).bind
        (fun s' => update_yield s' pkAlice 9 1200) =
      update_yield stateA pkAlice 9 1200 :=
  update_last_write_wins stateA pkAlice 3 550 9 1200 (by decide)

/-- C9: the persisted record is fixed-size, 35 bytes, in the order authority
(32 bytes), current_protocol (1 byte), current_apy_bps (2 bytes
little-endian); the two trailing bytes reconstruct the apy value. -/
theorem record_layout (s : YieldState) (hp : s.current_protocol < 256)
    (ha : s.current_apy_bps < 65536) :
    (serializeYieldState s).length = 35 ∧
      (serializeYieldState s).take 32 = s.authority.bytes ∧
      (serializeYieldState s).drop 32 =
        [s.current_protocol, s.current_apy_bps % 256, s.current_apy_bps / 256] ∧
      (∀ b ∈ serializeYieldState s, b < 256) ∧
      s.current_apy_bps % 256 + 256 * (s.current_apy_bps / 256) =
        s.current_apy_bps := by
  have hdiv : s.current_apy_bps / 256 < 256 :=
    Nat.div_lt_of_lt_mul ha
  refine ⟨?_, ?_, ?_, ?_, Nat.mod_add_div _ _⟩
  · simp [serializeYieldState, s.authority.len_eq]
  · rw [serializeYieldState, List.take_left' s.authority.len_eq]
  · rw [serializeYieldState, List.drop_left' s.authority.len_eq,
      Nat.mod_eq_of_lt hp, Nat.mod_eq_of_lt hdiv]
  · intro b hb
    rcases List.mem_append.mp hb with hmem | hmem
    · exact s.authority.bytes_lt b hmem
    · simp only [List.mem_cons, List.not_mem_nil, or_false] at hmem
      rcases hmem with h1 | h1 | h1 <;>
        · subst h1
          exact Nat.mod_lt _ (by norm_num)

/-- Witness for C9 at a concrete record. -/
theorem record_layout_witness :
    (serializeYieldState stateA).length = 35 ∧
      (serializeYieldState stateA).take 32 = stateA.authority.bytes ∧
      (serializeYieldState stateA).drop 32 =
        [stateA.current_protocol, stateA.current_apy_bps % 256,
          stateA.current_apy_bps / 256] ∧
      (∀ b ∈ serializeYieldState stateA, b < 256) ∧
      stateA.current_apy_bps % 256 + 256 * (stateA.current_apy_bps / 256) =
        stateA.current_apy_bps :=
  record_layout stateA (by decide) (by decide)

end YieldPilot
